import Mathlib

/-!
Verification development for the test-run concurrency-control subsystem of a
manual-test-case management application.

The embedding models:
  * the `testCaseExecutions` service: run locks (acquire / release / ownership
    assertion), idempotent execution-record creation, per-run statistics and
    duplicate cleanup (`src/services/testCaseExecutions.ts`);
  * the `testRuns` service: seed-based id generation with a durable counter,
    run creation and duplication (`src/services/testRuns.ts`);
  * the run-duplication workflow `confirmDuplicate` (`src/pages/TestRuns.tsx`).

The document store is modelled as an explicit state (`DB`) holding the
`testRuns`, `testCaseExecutions` and `testRunLocks` collections plus the
`appMetadata/testRunCounter` document.  Store-assigned execution-document ids
are modelled as naturals drawn from a fresh-id counter (`nextExecId`).
Timestamps are naturals (milliseconds).  Each browser tab's session-scoped
state (its `tabId` and the module-level `localLockTokens` map) is a
`TabSession` value threaded through the calls.  Every store call is an atomic
step of the sequential model; concurrent tabs are represented by running the
operations of different sessions in some interleaving order.

A `DB` additionally carries an event log (`log`) recording, in program order,
the creation of run documents, successful lock acquisitions, and the insertion
of execution documents.  The log is pure instrumentation used to state
temporal (ordering) properties of the duplication workflow; no modelled
operation reads it.
-/

/-- One `testCaseExecutions` document.  `status` holds the literal strings
used by the source ("Pass", "Fail", "Blocked", "Skip", "Not Run"). -/
structure TestCaseExecution where
  id : Nat
  testRunId : String
  testCaseId : String
  actualResult : String
  status : String
  testedBy : String
  executionDate : Nat
  notes : String
  order : Int
  deriving DecidableEq

/-- Argument of `testCaseExecutionsService.create` (an execution without `id`;
`notes` and `order` are optional in the source, and the supplied
`executionDate` is ignored in favour of the insertion time). -/
structure ExecutionInput where
  testRunId : String
  testCaseId : String
  actualResult : String
  status : String
  testedBy : String
  executionDate : Nat
  notes : Option String
  order : Option Int
  deriving DecidableEq

/-- Argument of `testCaseExecutionsService.update`: a partial record over the
fields the source's type allows (`id`, `testRunId`, `testCaseId` and
`executionDate` are excluded by the `Omit` in the signature). -/
structure ExecutionUpdate where
  actualResult : Option String
  status : Option String
  testedBy : Option String
  notes : Option String
  order : Option Int
  deriving DecidableEq

/-- One `testRunLocks` document (the document key is the test-run id). -/
structure RunLock where
  lockId : String
  tabId : String
  lockedBy : String
  reason : String
  lockedAt : Nat
  expiresAt : Nat
  deriving DecidableEq

/-- One `testRuns` document.  The source stores the human-readable id both as
the document key and as an `id` field with the same value; the model keeps the
single `id` field for both roles. -/
structure TestRunDoc where
  id : String
  name : String
  description : String
  createdBy : String
  createdAt : Nat
  updatedAt : Nat
  status : String
  deriving DecidableEq

/-- Argument of `testRunsService.createWithGeneratedId` (a run without id;
timestamps are assigned by `create`). -/
structure RunInput where
  name : String
  description : Option String
  createdBy : String
  status : String
  deriving DecidableEq

/-- Instrumentation events recorded by the model, in program order:
creation of a `testRuns` document, a successful lock acquisition, and the
insertion of a `testCaseExecutions` document. -/
inductive Event where
  | runCreated (id : String)
  | lockAcquired (testRunId : String) (reason : String)
  | execCreated (id : Nat) (testRunId : String)
  deriving DecidableEq, BEq

/-- The `TestRunLockedError` thrown by the lock manager.  The source carries a
message string and the conflicting owner's identity. -/
structure TestRunLockedError where
  message : String
  lockOwner : String
  deriving DecidableEq

/-- Session-scoped state of one browser tab: its `tabId` (persisted in the
tab's session storage) and the module-level `localLockTokens` map from run id
to the lock token last recorded by this tab. -/
structure TabSession where
  tabId : String
  localLockTokens : List (String × String)
  deriving DecidableEq

/-- The document store: the three collections used by the subsystem, the
`testRunCounter` document (`none` when the document does not exist), a
fresh-id source for store-assigned execution ids, and the instrumentation
log. -/
structure DB where
  runs : List TestRunDoc
  runCounter : Option Nat
  executions : List TestCaseExecution
  locks : List (String × RunLock)
  nextExecId : Nat
  log : List Event
  deriving DecidableEq

/-- Lock TTL: 2 minutes in milliseconds. -/
def LOCK_TTL_MS : Nat := 2 * 60 * 1000

/-- Retry bound for id generation and creation. -/
def MAX_ID_ATTEMPTS : Nat := 5

/-- Point read in an association list keyed by strings (document lookup by
key). -/
def lookupAssoc {β : Type} (m : List (String × β)) (k : String) : Option β :=
  (m.find? (fun p => p.1 == k)).map (fun p => p.2)

/-- Delete the entry with the given key. -/
def eraseAssoc {β : Type} (m : List (String × β)) (k : String) : List (String × β) :=
  m.filter (fun p => p.1 != k)

/-- Overwrite (or insert) the entry with the given key. -/
def setAssoc {β : Type} (m : List (String × β)) (k : String) (v : β) : List (String × β) :=
  (k, v) :: eraseAssoc m k

/-- JavaScript `a || dflt` on an optional string: the default is used both
when the value is absent and when it is the empty string (falsy). -/
def orDefault (s : Option String) (dflt : String) : String :=
  match s with
  | none => dflt
  | some v => if v = "" then dflt else v

/-- JavaScript `String.prototype.toLowerCase` (per-character lowering). -/
def jsToLowerCase (s : String) : String :=
  String.mk (s.data.map Char.toLower)

/-- JavaScript `String.prototype.trim`: strip whitespace from both ends. -/
def jsTrim (s : String) : String :=
  String.mk (((s.data.dropWhile Char.isWhitespace).reverse.dropWhile Char.isWhitespace).reverse)

/-- Does the pattern occur at the head of the character list? -/
def startsWithChars : List Char → List Char → Bool
  | [], _ => true
  | _ :: _, [] => false
  | p :: ps, c :: cs => p == c && startsWithChars ps cs

/-- Does the pattern occur anywhere in the character list? -/
def containsChars (pat : List Char) : List Char → Bool
  | [] => startsWithChars pat []
  | c :: cs => startsWithChars pat (c :: cs) || containsChars pat cs

/-- JavaScript `String.prototype.includes`. -/
def strContains (s pat : String) : Bool :=
  containsChars pat.data s.data

/-- Maximal leading run of decimal digits. -/
def digitsTaken : List Char → List Char
  | [] => []
  | c :: cs => if c.isDigit then c :: digitsTaken cs else []

/-- JavaScript `parseInt` on a list of decimal digits. -/
def digitsToNat (ds : List Char) : Nat :=
  ds.foldl (fun n c => n * 10 + (c.toNat - 48)) 0

/-- Leftmost match of the regular expression `TR(\d+)`: scan for a `T`
immediately followed by `R` and at least one digit, and return the number
denoted by the maximal digit run. -/
def findTRNumber : List Char → Option Nat
  | 'T' :: 'R' :: c :: rest =>
    if c.isDigit then some (digitsToNat (digitsTaken (c :: rest)))
    else findTRNumber ('R' :: c :: rest)
  | _ :: rest => findTRNumber rest
  | [] => none

/-- Model of `extractRunNumber` from `testRuns.ts`: trailing-digit parse of a run id,
0 when the id is absent or does not match `TR(\d+)`. -/
def extractRunNumber (id : Option String) : Nat :=
  match id with
  | none => 0
  | some s => (findTRNumber s.data).getD 0

/-- Model of `formatTestRunId` from `testRuns.ts`: `TR` followed by the number
zero-padded to width 3. -/
def formatTestRunId (num : Nat) : String :=
  let s := toString num
  "TR" ++ (if s.length < 3 then String.mk (List.replicate (3 - s.length) '0') ++ s else s)

/-- Insert an element into a sorted list, before the first element it is
`le`-below (the placement JavaScript's stable `Array.prototype.sort` gives an
earlier-indexed element among equals). -/
def insertBy {α : Type} (le : α → α → Bool) (a : α) : List α → List α
  | [] => [a]
  | b :: bs => if le a b then a :: b :: bs else b :: insertBy le a bs

/-- Stable insertion sort, modelling `Array.prototype.sort` with a total
comparator. -/
def insertionSort {α : Type} (le : α → α → Bool) : List α → List α
  | [] => []
  | x :: xs => insertBy le x (insertionSort le xs)

/-- The comparator of `getByTestRunId`: ascending `order`, ties broken by
`executionDate` descending. -/
def executionCompareLE (a b : TestCaseExecution) : Bool :=
  if a.order == b.order then b.executionDate ≤ a.executionDate else a.order < b.order

/-- Insertion-order deduplication of a list of strings, as performed by
`new Set(...)` in JavaScript (first occurrence kept, first-seen order). -/
def jsSetDedup (seen : List String) : List String → List String
  | [] => []
  | x :: xs => if x ∈ seen then jsSetDedup seen xs else x :: jsSetDedup (x :: seen) xs

/-- The duplicate-detection walk of `cleanupDuplicates`: ids of every record
whose `testCaseId` was already seen earlier in the list. -/
def findDupIds (seen : List String) : List TestCaseExecution → List Nat
  | [] => []
  | e :: rest =>
    if e.testCaseId ∈ seen then e.id :: findDupIds seen rest
    else findDupIds (e.testCaseId :: seen) rest

/-- The defensive deduplication of the duplication workflow: keep the first
record seen for each `testCaseId`, in list order. -/
def dedupByTestCaseId (seen : List String) : List TestCaseExecution → List TestCaseExecution
  | [] => []
  | e :: rest =>
    if e.testCaseId ∈ seen then dedupByTestCaseId seen rest
    else e :: dedupByTestCaseId (e.testCaseId :: seen) rest

deriving instance DecidableEq for Except

/-- Result of a lock acquisition: the returned token or the raised error,
with the resulting store and session states (on error the transaction aborts,
leaving both unchanged). -/
structure AcquireResult where
  result : Except TestRunLockedError String
  db : DB
  sess : TabSession
  deriving DecidableEq

/-- Result of an ownership assertion: the raised error if any (the expired
branch also deletes the stale lock and the local token), with the resulting
store and session states. -/
structure AssertResult where
  error : Option TestRunLockedError
  db : DB
  sess : TabSession
  deriving DecidableEq

/-- Result of an execution-record create: the id returned or the error
raised, with the resulting store and session states. -/
structure CreateResult where
  result : Except TestRunLockedError Nat
  db : DB
  sess : TabSession
  deriving DecidableEq

/-- The statistics record returned by `getTestRunStats`. -/
structure TestRunStats where
  total : Nat
  passed : Nat
  failed : Nat
  blocked : Nat
  skipped : Nat
  notRun : Nat
  deriving DecidableEq

namespace testCaseExecutionsService

/-- Model of `acquireTestRunLock`: inside a transaction, read the lock document for the
run; if it exists, is unexpired (`expiresAt` strictly in the future) and is
owned by a different tab, abort with a `TestRunLockedError` naming the current
owner (`lockedBy`, falling back to `tabId` when `lockedBy` is empty);
otherwise overwrite the lock document with a fresh token and a fresh
`now + LOCK_TTL_MS` expiry and record the token in this tab's
`localLockTokens`.  The fresh token is `tabId-now-rand` with `rand` the random
suffix drawn by the caller's runtime. -/
def acquireTestRunLock (db : DB) (sess : TabSession) (testRunId : String)
    (lockedBy reason : Option String) (now : Nat) (rand : String) : AcquireResult :=
  let tabId := sess.tabId
  let lockId := tabId ++ "-" ++ toString now ++ "-" ++ rand
  let expiresAt := now + LOCK_TTL_MS
  let write : AcquireResult :=
    { result := .ok lockId
    , db := { db with
        locks := setAssoc db.locks testRunId
          { lockId := lockId
          , tabId := tabId
          , lockedBy := orDefault lockedBy "unknown"
          , reason := orDefault reason "unspecified"
          , lockedAt := now
          , expiresAt := expiresAt }
      , log := db.log ++ [Event.lockAcquired testRunId (orDefault reason "unspecified")] }
    , sess := { sess with localLockTokens := setAssoc sess.localLockTokens testRunId lockId } }
  match lookupAssoc db.locks testRunId with
  | some data =>
    if now < data.expiresAt ∧ data.tabId ≠ tabId then
      { result := .error
          { message := "Test run " ++ testRunId ++ " is currently being modified by another tab."
          , lockOwner := if data.lockedBy = "" then data.tabId else data.lockedBy }
      , db := db
      , sess := sess }
    else write
  | none => write

/-- Model of `releaseTestRunLock`: resolve the effective token (explicit argument or
the tab's recorded one; no-op when neither exists); inside a transaction
delete the lock document when it references this token or this tab; finally
clear the local record when it still holds the effective token. -/
def releaseTestRunLock (db : DB) (sess : TabSession) (testRunId : String)
    (lockId : Option String) : DB × TabSession :=
  let tabId := sess.tabId
  match lockId.orElse (fun _ => lookupAssoc sess.localLockTokens testRunId) with
  | none => (db, sess)
  | some effectiveLockId =>
    match lookupAssoc db.locks testRunId with
    | none => (db, { sess with localLockTokens := eraseAssoc sess.localLockTokens testRunId })
    | some data =>
      let cleared : TabSession :=
        if lookupAssoc sess.localLockTokens testRunId = some effectiveLockId then
          { sess with localLockTokens := eraseAssoc sess.localLockTokens testRunId }
        else sess
      if data.lockId = effectiveLockId ∨ data.tabId = tabId then
        ({ db with locks := eraseAssoc db.locks testRunId }, cleared)
      else (db, cleared)

/-- Model of `_assertLockOwnership`: read the lock; raise "no active lock" when the
document is absent; raise "lock expired" (deleting the stale lock and the
local token) when `expiresAt ≤ now`; raise "locked by another tab" when the
locally recorded token is absent or does not match the stored `lockId`, or the
stored `tabId` is not this tab; succeed silently otherwise. -/
def assertLockOwnership (db : DB) (sess : TabSession) (testRunId : String)
    (now : Nat) : AssertResult :=
  match lookupAssoc db.locks testRunId with
  | none =>
    { error := some
        { message := "No active lock found for test run " ++ testRunId ++ ". Please retry your action."
        , lockOwner := "unknown" }
    , db := db
    , sess := sess }
  | some data =>
    if data.expiresAt ≤ now then
      { error := some
          { message := "The lock for test run " ++ testRunId ++ " expired. Please start the operation again."
          , lockOwner := if data.lockedBy = "" then data.tabId else data.lockedBy }
      , db := { db with locks := eraseAssoc db.locks testRunId }
      , sess := { sess with localLockTokens := eraseAssoc sess.localLockTokens testRunId } }
    else
      let ownershipOk : Bool :=
        match lookupAssoc sess.localLockTokens testRunId with
        | none => false
        | some localLockId => data.lockId == localLockId && data.tabId == sess.tabId
      if ownershipOk then { error := none, db := db, sess := sess }
      else
        { error := some
            { message := "Test run " ++ testRunId ++ " is locked by another tab."
            , lockOwner := if data.lockedBy = "" then data.tabId else data.lockedBy }
        , db := db
        , sess := sess }

/-- Model of `getByTestRunId`: all execution records of the run, sorted by `order`
ascending with ties broken by `executionDate` descending. -/
def getByTestRunId (db : DB) (testRunId : String) : List TestCaseExecution :=
  insertionSort executionCompareLE (db.executions.filter (fun r => r.testRunId == testRunId))

/-- Model of `existsByTestRunAndTestCase`: is the field-equality query on the
(testRunId, testCaseId) pair non-empty? -/
def existsByTestRunAndTestCase (db : DB) (testRunId testCaseId : String) : Bool :=
  !(db.executions.filter (fun r => r.testRunId == testRunId && r.testCaseId == testCaseId)).isEmpty

/-- Model of `create`: assert lock ownership for the target run, re-check for an
existing record with the same (testRunId, testCaseId) pair and, when one
exists, return its id without inserting (`querySnapshot.docs[0]?.id || ''`;
the fallback, modelled as 0, is unreachable right after a non-empty existence
check); otherwise insert a fresh record whose `executionDate` is the insertion
time, `notes` defaults to the empty string and `order` defaults to 0. -/
def create (db : DB) (sess : TabSession) (execution : ExecutionInput) (now : Nat) : CreateResult :=
  let a := assertLockOwnership db sess execution.testRunId now
  match a.error with
  | some err => { result := .error err, db := a.db, sess := a.sess }
  | none =>
    if existsByTestRunAndTestCase a.db execution.testRunId execution.testCaseId then
      let q := a.db.executions.filter
        (fun r => r.testRunId == execution.testRunId && r.testCaseId == execution.testCaseId)
      { result := .ok ((q.head?.map (fun d => d.id)).getD 0), db := a.db, sess := a.sess }
    else
      let newId := a.db.nextExecId
      let newRecord : TestCaseExecution :=
        { id := newId
        , testRunId := execution.testRunId
        , testCaseId := execution.testCaseId
        , actualResult := execution.actualResult
        , status := execution.status
        , testedBy := execution.testedBy
        , executionDate := now
        , notes := orDefault execution.notes ""
        , order := execution.order.getD 0 }
      { result := .ok newId
      , db := { a.db with
            executions := a.db.executions ++ [newRecord]
          , nextExecId := newId + 1
          , log := a.db.log ++ [Event.execCreated newId execution.testRunId] }
      , sess := a.sess }

/-- Model of `applyExecutionUpdate`: the partial field merge `updateDoc` performs. -/
def applyExecutionUpdate (r : TestCaseExecution) (u : ExecutionUpdate) : TestCaseExecution :=
  { r with
      actualResult := u.actualResult.getD r.actualResult
    , status := u.status.getD r.status
    , testedBy := u.testedBy.getD r.testedBy
    , notes := u.notes.getD r.notes
    , order := u.order.getD r.order }

/-- Model of `update`: merge the accepted fields into the record with the given id
(`updateDoc` rejects when the document is absent). -/
def update (db : DB) (id : Nat) (updates : ExecutionUpdate) : Except String DB :=
  if db.executions.any (fun r => r.id == id) then
    .ok { db with
      executions := db.executions.map (fun r => if r.id == id then applyExecutionUpdate r updates else r) }
  else .error "No document to update"

/-- Model of `getTestRunStats`: fetch the run's records, deduplicate by `testCaseId`
(keeping, for each id, the first record found in the sorted listing), then
count totals per status. -/
def getTestRunStats (db : DB) (testRunId : String) : TestRunStats :=
  let executions := getByTestRunId db testRunId
  let uniqueTestCaseIds := jsSetDedup [] (executions.map (fun e => e.testCaseId))
  let uniqueExecutions := uniqueTestCaseIds.filterMap
    (fun testCaseId => executions.find? (fun e => e.testCaseId == testCaseId))
  { total := uniqueExecutions.length
  , passed := (uniqueExecutions.filter (fun e => e.status == "Pass")).length
  , failed := (uniqueExecutions.filter (fun e => e.status == "Fail")).length
  , blocked := (uniqueExecutions.filter (fun e => e.status == "Blocked")).length
  , skipped := (uniqueExecutions.filter (fun e => e.status == "Skip")).length
  , notRun := (uniqueExecutions.filter (fun e => e.status == "Not Run")).length }

/-- Model of `cleanupDuplicates`: fetch the run's records in sorted order, walk them
keeping the first occurrence of each `testCaseId`, delete every later
occurrence, and return the number removed. -/
def cleanupDuplicates (db : DB) (testRunId : String) : Nat × DB :=
  let executions := getByTestRunId db testRunId
  let duplicatesToDelete := findDupIds [] executions
  ( duplicatesToDelete.length
  , { db with
        executions := duplicatesToDelete.foldl
          (fun exs i => exs.filter (fun r => r.id != i)) db.executions } )

end testCaseExecutionsService

namespace testRunsService

/-- The `testRuns` collection ordered by `createdAt` descending (the
`orderBy('createdAt', 'desc')` query). -/
def runsByCreatedAtDesc (runs : List TestRunDoc) : List TestRunDoc :=
  insertionSort (fun a b => b.createdAt ≤ a.createdAt) runs

/-- Model of `getSeedRunNumber`: the trailing digits of the most recently created
run's stored id, 0 when the collection is empty (or parsing fails). -/
def getSeedRunNumber (db : DB) : Nat :=
  match runsByCreatedAtDesc db.runs with
  | [] => 0
  | lastDoc :: _ => extractRunNumber (some lastDoc.id)

/-- One-or-more attempts of `generateTestRunId`: transactionally advance the
counter (defaulting to the seed when the counter document is absent), then
probe the `testRuns` collection for a document already using the candidate id;
on collision retry within the attempt bound. -/
def generateTestRunIdLoop (seedValue : Nat) : Nat → DB → Except String (String × DB)
  | 0, _ => .error "Unable to generate a unique test run ID. Please try again."
  | fuel + 1, db =>
    let currentValue := db.runCounter.getD seedValue
    let nextNumber := currentValue + 1
    let db1 := { db with runCounter := some nextNumber }
    let candidateId := formatTestRunId nextNumber
    if db1.runs.any (fun r => r.id == candidateId) then
      generateTestRunIdLoop seedValue fuel db1
    else .ok (candidateId, db1)

/-- Model of `generateTestRunId`: compute the seed once, then run the counter-advance
and existence-probe loop for at most `MAX_ID_ATTEMPTS` attempts. -/
def generateTestRunId (db : DB) : Except String (String × DB) :=
  generateTestRunIdLoop (getSeedRunNumber db) MAX_ID_ATTEMPTS db

/-- Model of `create`: reject when a run document with this id already exists,
otherwise write the run document with fresh `createdAt`/`updatedAt`. -/
def create (db : DB) (testRun : TestRunDoc) (now : Nat) : Except String DB :=
  if db.runs.any (fun r => r.id == testRun.id) then
    .error ("Test run with ID " ++ testRun.id ++ " already exists.")
  else
    .ok { db with
        runs := db.runs ++ [{ testRun with createdAt := now, updatedAt := now }]
      , log := db.log ++ [Event.runCreated testRun.id] }

/-- One-or-more attempts of `createWithGeneratedId`: generate an id, try to
create; on an "already exists" failure retry with a newly generated id, within
the attempt bound. -/
def createWithGeneratedIdLoop (input : RunInput) (now : Nat) : Nat → DB → Except String (String × DB)
  | 0, _ => .error "Unable to create a unique test run. Please try again."
  | fuel + 1, db =>
    match generateTestRunId db with
    | .error e => .error e
    | .ok (candidateId, db1) =>
      match create db1
          { id := candidateId
          , name := input.name
          , description := input.description.getD ""
          , createdBy := input.createdBy
          , createdAt := now
          , updatedAt := now
          , status := input.status } now with
      | .ok db2 => .ok (candidateId, db2)
      | .error e =>
        if strContains e "already exists" then createWithGeneratedIdLoop input now fuel db1
        else .error e

/-- Model of `createWithGeneratedId`: the collision-handling creation loop with the
fixed attempt bound. -/
def createWithGeneratedId (input : RunInput) (now : Nat) (db : DB) : Except String (String × DB) :=
  createWithGeneratedIdLoop input now MAX_ID_ATTEMPTS db

/-- Model of `nameExists`: case-insensitive scan of all run names. -/
def nameExists (db : DB) (name : String) : Bool :=
  db.runs.any (fun run => jsToLowerCase run.name == jsToLowerCase name)

/-- Model of `duplicate`: load the source run (error when absent), resolve the new name
(custom name, or source name + " (Copy)"), reject a case-insensitively
duplicate name, then create the new run with metadata copied from the source
and status reset to "Not Started".  Executions are duplicated separately by
the caller. -/
def duplicate (db : DB) (id createdBy : String) (customName : Option String) (now : Nat) :
    Except String (String × DB) :=
  match db.runs.find? (fun r => r.id == id) with
  | none => .error "Test run not found"
  | some original =>
    let newName := orDefault customName (original.name ++ " (Copy)")
    if nameExists db newName then .error "A test run with this name already exists"
    else
      createWithGeneratedId
        { name := newName
        , description := some original.description
        , createdBy := createdBy
        , status := "Not Started" } now db

end testRunsService

/-- The per-execution create loop of `confirmDuplicate`: one `create` per
unique source execution, targeting the new run with the same `testCaseId` and
`order` and the result fields reset.  The source issues these creates through
`Promise.all`; the model runs them in list order, one allowed interleaving,
stopping at the first error (the error propagates and already-created records
persist). -/
def createAllExecutions (newTestRunId : String) (now : Nat) :
    List TestCaseExecution → DB → TabSession →
    (Except TestRunLockedError Unit) × DB × TabSession
  | [], db, sess => (.ok (), db, sess)
  | execution :: rest, db, sess =>
    let r := testCaseExecutionsService.create db sess
      { testRunId := newTestRunId
      , testCaseId := execution.testCaseId
      , actualResult := ""
      , status := "Not Run"
      , testedBy := ""
      , executionDate := now
      , notes := some ""
      , order := some execution.order } now
    match r.result with
    | .error e => (.error e, r.db, r.sess)
    | .ok _ => createAllExecutions newTestRunId now rest r.db r.sess

/-- Model of `confirmDuplicate` (TestRuns page), without the UI re-entrancy guard:
validate the new name, duplicate the run record, acquire the run lock for the
new id with reason "duplicate-test-run", copy the source run's executions
(deduplicated by `testCaseId`) onto the new run with reset result fields, and
release the lock on both the success and the failure path.  Errors abort the
workflow; the model returns the pre-call state to the caller on the
early-abort paths, which the confirmed claims never inspect. -/
def confirmDuplicate (db : DB) (sess : TabSession)
    (duplicateSourceId userEmail newTestRunName : String) (now : Nat) (rand : String) :
    (Except String String) × DB × TabSession :=
  if jsTrim newTestRunName == "" then (.error "Test run name is required", db, sess)
  else if testRunsService.nameExists db newTestRunName then
    (.error "A test run with this name already exists", db, sess)
  else
    match testRunsService.duplicate db duplicateSourceId userEmail (some newTestRunName) now with
    | .error e => (.error e, db, sess)
    | .ok (newTestRunId, db1) =>
      let acq := testCaseExecutionsService.acquireTestRunLock db1 sess newTestRunId
        (some userEmail) (some "duplicate-test-run") now rand
      match acq.result with
      | .error e => (.error e.message, acq.db, acq.sess)
      | .ok lockId =>
        let originalExecutions := testCaseExecutionsService.getByTestRunId acq.db duplicateSourceId
        let uniqueExecutions := dedupByTestCaseId [] originalExecutions
        match createAllExecutions newTestRunId now uniqueExecutions acq.db acq.sess with
        | (.error e, db3, sess3) =>
          let rel := testCaseExecutionsService.releaseTestRunLock db3 sess3 newTestRunId (some lockId)
          (.error e.message, rel.1, rel.2)
        | (.ok _, db3, sess3) =>
          let rel := testCaseExecutionsService.releaseTestRunLock db3 sess3 newTestRunId (some lockId)
          (.ok newTestRunId, rel.1, rel.2)

/-- A store holding one source run `TR001` with three executions for cases
`C1`, `C2`, `C3` at orders 0, 1, 2 — the initial state of the end-to-end
duplication scenario. -/
def sampleDb : DB :=
  { runs := [{ id := "TR001", name := "Release 1", description := "", createdBy := "alice@example.com"
             , createdAt := 100, updatedAt := 100, status := "In Progress" }]
  , runCounter := none
  , executions :=
      [ { id := 0, testRunId := "TR001", testCaseId := "C1", actualResult := "ok", status := "Pass"
        , testedBy := "alice@example.com", executionDate := 10, notes := "", order := 0 }
      , { id := 1, testRunId := "TR001", testCaseId := "C2", actualResult := "bad", status := "Fail"
        , testedBy := "alice@example.com", executionDate := 11, notes := "", order := 1 }
      , { id := 2, testRunId := "TR001", testCaseId := "C3", actualResult := "", status := "Not Run"
        , testedBy := "", executionDate := 12, notes := "", order := 2 } ]
  , locks := []
  , nextExecId := 3
  , log := [] }

/-- A fresh browser tab with no recorded lock tokens. -/
def sampleSess : TabSession := { tabId := "tab-A", localLockTokens := [] }

/-- A store whose `testRuns` collection holds two manually created runs, the
most recent being `TR005`, and no counter document. -/
def seedDb : DB :=
  { runs := [ { id := "TR003", name := "Old run", description := "", createdBy := "alice@example.com"
              , createdAt := 50, updatedAt := 50, status := "Completed" }
            , { id := "TR005", name := "Manual run", description := "", createdBy := "alice@example.com"
              , createdAt := 90, updatedAt := 90, status := "Not Started" } ]
  , runCounter := none, executions := [], locks := [], nextExecId := 0, log := [] }

/-- A run `R` seeded with duplicate executions for cases `[C1, C1, C2, C1]`
at orders `[0, 3, 1, 2]`. -/
def dupDb : DB :=
  { runs := [], runCounter := none
  , executions :=
      [ { id := 10, testRunId := "R", testCaseId := "C1", actualResult := "", status := "Not Run"
        , testedBy := "", executionDate := 1, notes := "", order := 0 }
      , { id := 11, testRunId := "R", testCaseId := "C1", actualResult := "", status := "Not Run"
        , testedBy := "", executionDate := 2, notes := "", order := 3 }
      , { id := 12, testRunId := "R", testCaseId := "C2", actualResult := "", status := "Not Run"
        , testedBy := "", executionDate := 3, notes := "", order := 1 }
      , { id := 13, testRunId := "R", testCaseId := "C1", actualResult := "", status := "Not Run"
        , testedBy := "", executionDate := 4, notes := "", order := 2 } ]
  , locks := [], nextExecId := 14, log := [] }

/-- A tab validly holding the lock on run `TR001`. -/
def heldLock : RunLock :=
  { lockId := "tab-A-5-xy", tabId := "tab-A", lockedBy := "alice@example.com"
  , reason := "execution", lockedAt := 5, expiresAt := 120005 }

/-- A store whose only interesting content is the held lock on `TR001` plus
one existing execution record. -/
def lockedDb : DB :=
  { runs := [], runCounter := none
  , executions :=
      [ { id := 7, testRunId := "TR009", testCaseId := "C9", actualResult := "", status := "Not Run"
        , testedBy := "", executionDate := 1, notes := "", order := 0 } ]
  , locks := [("TR001", heldLock)]
  , nextExecId := 8
  , log := [] }

/-- The session of the tab that acquired `heldLock`. -/
def ownerSess : TabSession :=
  { tabId := "tab-A", localLockTokens := [("TR001", "tab-A-5-xy")] }

/-- A second tab with a different identity. -/
def otherSess : TabSession := { tabId := "tab-B", localLockTokens := [] }

/-- The record `create` inserts for a given input, fresh id and insertion
time. -/
def newExecRecord (execution : ExecutionInput) (newId : Nat) (now : Nat) : TestCaseExecution :=
  { id := newId
  , testRunId := execution.testRunId
  , testCaseId := execution.testCaseId
  , actualResult := execution.actualResult
  , status := execution.status
  , testedBy := execution.testedBy
  , executionDate := now
  , notes := orDefault execution.notes ""
  , order := execution.order.getD 0 }

/-- The tab validly holds the run's lock at time `t`: the lock document
exists, is unexpired at `t`, its token is the one the tab recorded, and its
`tabId` is the tab's. -/
def lockValid (db : DB) (sess : TabSession) (testRunId : String) (t : Nat) : Prop :=
  ∃ d, lookupAssoc db.locks testRunId = some d ∧ t < d.expiresAt ∧
    lookupAssoc sess.localLockTokens testRunId = some d.lockId ∧ d.tabId = sess.tabId

/-- A sequence of `create` calls with the same input from one tab, issued at
the given times: the list of results together with the final store and
session states. -/
def createCalls (e : ExecutionInput) :
    List Nat → DB → TabSession → List (Except TestRunLockedError Nat) × DB × TabSession
  | [], db, sess => ([], db, sess)
  | t :: ts, db, sess =>
    let r := testCaseExecutionsService.create db sess e t
    let rest := createCalls e ts r.db r.sess
    (r.result :: rest.1, rest.2)

/-- The create input used in the idempotent-create witness. -/
def wExecInput : ExecutionInput :=
  { testRunId := "TR001", testCaseId := "C1", actualResult := "", status := "Not Run"
  , testedBy := "", executionDate := 0, notes := some "", order := some 0 }

/-- An expired lock document on `TR001` (same owner as `heldLock`). -/
def expiredLock : RunLock :=
  { lockId := "tab-A-5-xy", tabId := "tab-A", lockedBy := "alice@example.com"
  , reason := "execution", lockedAt := 5, expiresAt := 900 }

/-- A store holding only the expired `TR001` lock. -/
def expiredDb : DB :=
  { runs := [], runCounter := none, executions := []
  , locks := [("TR001", expiredLock)], nextExecId := 0, log := [] }

/-- The partial update used in the update-frame witness. -/
def wUpdate : ExecutionUpdate :=
  { actualResult := none, status := some "Pass", testedBy := none, notes := none, order := none }

/-- The store `lockedDb` after applying `wUpdate` to the record with id 7. -/
def lockedDbUpdated : DB :=
  { lockedDb with executions :=
      [ { id := 7, testRunId := "TR009", testCaseId := "C9", actualResult := "", status := "Pass"
        , testedBy := "", executionDate := 1, notes := "", order := 0 } ] }

/-- The outcome of a successful lock acquisition: the lock document written,
the token recorded locally, and the acquisition logged. -/
def acquireWriteResult (db : DB) (sess : TabSession) (testRunId : String)
    (lockedBy reason : Option String) (now : Nat) (rand : String) : AcquireResult :=
  { result := .ok (sess.tabId ++ "-" ++ toString now ++ "-" ++ rand)
  , db := { db with
        locks := setAssoc db.locks testRunId
          { lockId := sess.tabId ++ "-" ++ toString now ++ "-" ++ rand
          , tabId := sess.tabId
          , lockedBy := orDefault lockedBy "unknown"
          , reason := orDefault reason "unspecified"
          , lockedAt := now
          , expiresAt := now + LOCK_TTL_MS }
      , log := db.log ++ [Event.lockAcquired testRunId (orDefault reason "unspecified")] }
  , sess := { sess with
        localLockTokens := setAssoc sess.localLockTokens testRunId
          (sess.tabId ++ "-" ++ toString now ++ "-" ++ rand) } }

/-- Overwriting a key makes it the one found. -/
theorem lookupAssoc_setAssoc_self {β : Type} (m : List (String × β)) (k : String) (v : β) :
    lookupAssoc (setAssoc m k v) k = some v := by
  simp [lookupAssoc, setAssoc, List.find?]

/-- Inserting into a list is a permutation of consing. -/
theorem insertBy_perm {α : Type} (le : α → α → Bool) (a : α) :
    ∀ l : List α, (insertBy le a l).Perm (a :: l)
  | [] => List.Perm.refl _
  | b :: bs => by
    unfold insertBy
    by_cases h : le a b = true
    · rw [if_pos h]
    · rw [if_neg h]
      exact ((insertBy_perm le a bs).cons b).trans (List.Perm.swap a b bs)

/-- Insertion sort permutes its input. -/
theorem insertionSort_perm {α : Type} (le : α → α → Bool) :
    ∀ l : List α, (insertionSort le l).Perm l
  | [] => List.Perm.refl _
  | x :: xs =>
    (insertBy_perm le x (insertionSort le xs)).trans ((insertionSort_perm le xs).cons x)

/-- Membership in the insertion-order deduplication. -/
theorem mem_jsSetDedup (a : String) :
    ∀ (l seen : List String), a ∈ jsSetDedup seen l ↔ a ∈ l ∧ a ∉ seen
  | [], seen => by simp [jsSetDedup]
  | x :: xs, seen => by
    unfold jsSetDedup
    by_cases h : x ∈ seen
    · rw [if_pos h, mem_jsSetDedup a xs seen]
      constructor
      · exact fun ⟨h1, h2⟩ => ⟨List.mem_cons_of_mem x h1, h2⟩
      · rintro ⟨h1, h2⟩
        rcases List.mem_cons.mp h1 with rfl | h1
        · exact absurd h h2
        · exact ⟨h1, h2⟩
    · rw [if_neg h]
      constructor
      · intro hmem
        rcases List.mem_cons.mp hmem with rfl | hmem
        · exact ⟨List.mem_cons_self a xs, h⟩
        · have := (mem_jsSetDedup a xs (x :: seen)).mp hmem
          exact ⟨List.mem_cons_of_mem x this.1, fun hs => this.2 (List.mem_cons_of_mem x hs)⟩
      · rintro ⟨h1, h2⟩
        rcases List.mem_cons.mp h1 with rfl | h1
        · exact List.mem_cons_self a _
        · by_cases hx : a = x
          · subst hx; exact List.mem_cons_self a _
          · exact List.mem_cons_of_mem x
              ((mem_jsSetDedup a xs (x :: seen)).mpr
                ⟨h1, fun hs => (List.mem_cons.mp hs).elim hx h2⟩)

/-- The insertion-order deduplication has no duplicates. -/
theorem nodup_jsSetDedup : ∀ (l seen : List String), (jsSetDedup seen l).Nodup
  | [], seen => List.nodup_nil
  | x :: xs, seen => by
    unfold jsSetDedup
    by_cases h : x ∈ seen
    · rw [if_pos h]; exact nodup_jsSetDedup xs seen
    · rw [if_neg h]
      refine List.nodup_cons.mpr ⟨?_, nodup_jsSetDedup xs (x :: seen)⟩
      intro hmem
      exact ((mem_jsSetDedup x xs (x :: seen)).mp hmem).2 (List.mem_cons_self x seen)

/-- A `filterMap` preserves length when the function succeeds on every
element. -/
theorem length_filterMap_of_isSome {α β : Type} (f : α → Option β) :
    ∀ l : List α, (∀ a ∈ l, (f a).isSome) → (l.filterMap f).length = l.length
  | [], _ => rfl
  | a :: l, h => by
    rcases hfa : f a with _ | b
    · exact absurd (hfa ▸ h a (List.mem_cons_self a l)) (by simp)
    · rw [List.filterMap_cons_some hfa, List.length_cons, List.length_cons,
        length_filterMap_of_isSome f l (fun x hx => h x (List.mem_cons_of_mem a hx))]

/-- When the tab validly holds the lock, the ownership assertion succeeds
silently and changes nothing. -/
theorem assertLockOwnership_of_valid (db : DB) (sess : TabSession) (testRunId : String)
    (now : Nat) (h : lockValid db sess testRunId now) :
    testCaseExecutionsService.assertLockOwnership db sess testRunId now =
      { error := none, db := db, sess := sess } := by
  obtain ⟨d, hfound, hlive, htok, htab⟩ := h
  have h1 : ¬ d.expiresAt ≤ now := by omega
  unfold testCaseExecutionsService.assertLockOwnership
  rw [hfound]
  simp [h1, htok, htab]

/-- A `create` that finds an existing record for the pair returns its id and
changes nothing. -/
theorem create_existing (db : DB) (sess : TabSession) (e : ExecutionInput) (now : Nat)
    (r0 : TestCaseExecution)
    (hvalid : lockValid db sess e.testRunId now)
    (hfilter : db.executions.filter
      (fun x => x.testRunId == e.testRunId && x.testCaseId == e.testCaseId) = [r0]) :
    testCaseExecutionsService.create db sess e now =
      { result := .ok r0.id, db := db, sess := sess } := by
  unfold testCaseExecutionsService.create
  rw [assertLockOwnership_of_valid db sess e.testRunId now hvalid]
  simp [testCaseExecutionsService.existsByTestRunAndTestCase, hfilter]

/-- A `create` that finds no record for the pair inserts exactly one fresh
record and returns its id. -/
theorem create_inserts (db : DB) (sess : TabSession) (e : ExecutionInput) (now : Nat)
    (hvalid : lockValid db sess e.testRunId now)
    (hfilter : db.executions.filter
      (fun x => x.testRunId == e.testRunId && x.testCaseId == e.testCaseId) = []) :
    testCaseExecutionsService.create db sess e now =
      { result := .ok db.nextExecId
      , db := { db with
            executions := db.executions ++ [newExecRecord e db.nextExecId now]
          , nextExecId := db.nextExecId + 1
          , log := db.log ++ [Event.execCreated db.nextExecId e.testRunId] }
      , sess := sess } := by
  unfold testCaseExecutionsService.create
  rw [assertLockOwnership_of_valid db sess e.testRunId now hvalid]
  simp [testCaseExecutionsService.existsByTestRunAndTestCase, hfilter, newExecRecord]

/-- Once exactly one record for the pair exists, every further `create` in the
sequence returns its id and leaves both states unchanged. -/
theorem createCalls_steady (e : ExecutionInput) (r0 : TestCaseExecution) :
    ∀ (ts : List Nat) (db : DB) (sess : TabSession),
      db.executions.filter
        (fun x => x.testRunId == e.testRunId && x.testCaseId == e.testCaseId) = [r0] →
      (∀ t ∈ ts, lockValid db sess e.testRunId t) →
      createCalls e ts db sess = (ts.map (fun _ => Except.ok r0.id), db, sess)
  | [], db, sess, _, _ => rfl
  | t :: ts, db, sess, hf, hl => by
    have hc := create_existing db sess e t r0 (hl t (List.mem_cons_self t ts)) hf
    unfold createCalls
    rw [hc]
    simp only [createCalls_steady e r0 ts db sess hf (fun u hu => hl u (List.mem_cons_of_mem t hu)),
      List.map_cons]

/-- C1: for every sequence of `create` calls with the same
(testRunId, testCaseId) pair, starting from a state with no record for the
pair and with the calling tab validly holding the run's lock at each call
time, exactly one execution record for the pair exists afterwards and every
call returns the same id — a call that finds an existing record inserts
nothing and returns the existing record's id unchanged. -/
theorem create_sequence_idempotent (db : DB) (sess : TabSession) (e : ExecutionInput)
    (t0 : Nat) (times : List Nat)
    (hnone : db.executions.filter
      (fun x => x.testRunId == e.testRunId && x.testCaseId == e.testCaseId) = [])
    (hlock : ∀ t ∈ t0 :: times, lockValid db sess e.testRunId t) :
    ((createCalls e (t0 :: times) db sess).2.1.executions.filter
      (fun x => x.testRunId == e.testRunId && x.testCaseId == e.testCaseId)).length = 1 ∧
    (createCalls e (t0 :: times) db sess).1 =
      (t0 :: times).map (fun _ => Except.ok db.nextExecId) := by
  have hvalid0 := hlock t0 (List.mem_cons_self t0 times)
  have hc := create_inserts db sess e t0 hvalid0 hnone
  have hmatch : ((newExecRecord e db.nextExecId t0).testRunId == e.testRunId &&
      (newExecRecord e db.nextExecId t0).testCaseId == e.testCaseId) = true := by
    simp [newExecRecord]
  have hf1 : ({ db with
        executions := db.executions ++ [newExecRecord e db.nextExecId t0]
      , nextExecId := db.nextExecId + 1
      , log := db.log ++ [Event.execCreated db.nextExecId e.testRunId] } : DB).executions.filter
        (fun x => x.testRunId == e.testRunId && x.testCaseId == e.testCaseId) =
      [newExecRecord e db.nextExecId t0] := by
    simp [List.filter_append, hnone, hmatch]
  have hlock1 : ∀ t ∈ times, lockValid { db with
        executions := db.executions ++ [newExecRecord e db.nextExecId t0]
      , nextExecId := db.nextExecId + 1
      , log := db.log ++ [Event.execCreated db.nextExecId e.testRunId] } sess e.testRunId t :=
    fun t ht => hlock t (List.mem_cons_of_mem t0 ht)
  have hsteady := createCalls_steady e (newExecRecord e db.nextExecId t0) times _ sess hf1 hlock1
  unfold createCalls
  rw [hc]
  simp only [hsteady]
  constructor
  · simp [hf1]
  · simp [newExecRecord]

/-- Closed witness for `create_sequence_idempotent`: two creates of the same
pair on a locked run produce one record and both return id 8. -/
theorem create_sequence_idempotent_witness :
    (lockedDb.executions.filter
      (fun x => x.testRunId == wExecInput.testRunId && x.testCaseId == wExecInput.testCaseId) = []) ∧
    ((createCalls wExecInput [1000, 2000] lockedDb ownerSess).2.1.executions.filter
      (fun x => x.testRunId == wExecInput.testRunId && x.testCaseId == wExecInput.testCaseId)).length = 1 ∧
    (createCalls wExecInput [1000, 2000] lockedDb ownerSess).1 =
      [1000, 2000].map (fun _ => Except.ok lockedDb.nextExecId) :=
  ⟨by decide,
   create_sequence_idempotent lockedDb ownerSess wExecInput 1000 [2000] (by decide)
     (by
       intro t ht
       refine ⟨heldLock, by decide, ?_, by decide, by decide⟩
       simp only [List.mem_cons, List.mem_singleton] at ht
       rcases ht with rfl | rfl | h
       · decide
       · decide
       · exact absurd h (List.not_mem_nil t))⟩

/-- C2: an `acquire` on a runId whose lock document is present, unexpired and
owned by a different tab raises the locked-by-another-tab error carrying the
first owner's identity (`lockedBy`, or `tabId` when `lockedBy` is empty), and
leaves the lock document and the session untouched. -/
theorem acquire_lock_held_by_other (db : DB) (sess : TabSession) (testRunId : String)
    (lockedBy reason : Option String) (now : Nat) (rand : String) (d : RunLock)
    (hfound : lookupAssoc db.locks testRunId = some d)
    (hlive : now < d.expiresAt)
    (hother : d.tabId ≠ sess.tabId) :
    testCaseExecutionsService.acquireTestRunLock db sess testRunId lockedBy reason now rand =
      { result := Except.error
          { message := "Test run " ++ testRunId ++ " is currently being modified by another tab."
          , lockOwner := if d.lockedBy = "" then d.tabId else d.lockedBy }
      , db := db
      , sess := sess } := by
  unfold testCaseExecutionsService.acquireTestRunLock
  rw [hfound]
  simp [hlive, hother]

/-- Closed witness for `acquire_lock_held_by_other` on a concrete held
lock. -/
theorem acquire_lock_held_by_other_witness :
    (lookupAssoc lockedDb.locks "TR001" = some heldLock ∧ (10 : Nat) < heldLock.expiresAt ∧
      heldLock.tabId ≠ otherSess.tabId) ∧
    testCaseExecutionsService.acquireTestRunLock lockedDb otherSess "TR001"
        (some "bob@example.com") (some "edit") 10 "r2" =
      { result := Except.error
          { message := "Test run " ++ "TR001" ++ " is currently being modified by another tab."
          , lockOwner := if heldLock.lockedBy = "" then heldLock.tabId else heldLock.lockedBy }
      , db := lockedDb
      , sess := otherSess } :=
  ⟨⟨by decide, by decide, by decide⟩,
   acquire_lock_held_by_other lockedDb otherSess "TR001" (some "bob@example.com") (some "edit")
     10 "r2" heldLock (by decide) (by decide) (by decide)⟩

/-- The expired-lock message differs from the locked-by-another-tab message
for every runId (the two errors are distinguishable). -/
theorem expired_message_ne_locked_message (testRunId : String) :
    ("The lock for test run " ++ testRunId ++ " expired. Please start the operation again.") ≠
      ("Test run " ++ testRunId ++ " is locked by another tab.") := by
  intro h
  have h2 := congrArg String.length h
  simp only [String.length_append] at h2
  have e1 : ("The lock for test run " : String).length = 22 := by decide
  have e2 : (" expired. Please start the operation again." : String).length = 43 := by decide
  have e3 : ("Test run " : String).length = 9 := by decide
  have e4 : (" is locked by another tab." : String).length = 26 := by decide
  rw [e1, e2, e3, e4] at h2
  omega

/-- C3: once a lock's `expiresAt` has passed, an `acquire` on that runId from
a different tab succeeds and returns the fresh token, while an
`assertOwnership` by the tab that originally held the lock raises the
lock-expired error — whose message is distinct from the
locked-by-another-tab message. -/
theorem lock_expiry_recovery (db : DB) (sessA sessB : TabSession) (testRunId : String)
    (lockedBy reason : Option String) (now : Nat) (rand : String) (d : RunLock)
    (hfound : lookupAssoc db.locks testRunId = some d)
    (hexpired : d.expiresAt ≤ now)
    (hotherB : d.tabId ≠ sessB.tabId)
    (horigA : d.tabId = sessA.tabId)
    (htokA : lookupAssoc sessA.localLockTokens testRunId = some d.lockId) :
    (testCaseExecutionsService.acquireTestRunLock db sessB testRunId lockedBy reason now rand).result =
      Except.ok (sessB.tabId ++ "-" ++ toString now ++ "-" ++ rand) ∧
    (testCaseExecutionsService.assertLockOwnership db sessA testRunId now).error =
      some { message := "The lock for test run " ++ testRunId ++ " expired. Please start the operation again."
           , lockOwner := if d.lockedBy = "" then d.tabId else d.lockedBy } ∧
    ("The lock for test run " ++ testRunId ++ " expired. Please start the operation again.") ≠
      ("Test run " ++ testRunId ++ " is locked by another tab.") := by
  refine ⟨?_, ?_, expired_message_ne_locked_message testRunId⟩
  · have hcond : ¬ (now < d.expiresAt ∧ d.tabId ≠ sessB.tabId) := by
      intro hx
      omega
    unfold testCaseExecutionsService.acquireTestRunLock
    rw [hfound]
    simp [hcond]
  · unfold testCaseExecutionsService.assertLockOwnership
    rw [hfound]
    simp [hexpired]

/-- Closed witness for `lock_expiry_recovery` on a concrete expired lock. -/
theorem lock_expiry_recovery_witness :
    (lookupAssoc expiredDb.locks "TR001" = some expiredLock ∧ expiredLock.expiresAt ≤ 1000 ∧
      expiredLock.tabId ≠ otherSess.tabId ∧ expiredLock.tabId = ownerSess.tabId ∧
      lookupAssoc ownerSess.localLockTokens "TR001" = some expiredLock.lockId) ∧
    ((testCaseExecutionsService.acquireTestRunLock expiredDb otherSess "TR001"
        (some "bob@example.com") (some "edit") 1000 "r3").result =
      Except.ok (otherSess.tabId ++ "-" ++ toString (1000 : Nat) ++ "-" ++ "r3") ∧
    (testCaseExecutionsService.assertLockOwnership expiredDb ownerSess "TR001" 1000).error =
      some { message := "The lock for test run " ++ "TR001" ++ " expired. Please start the operation again."
           , lockOwner := if expiredLock.lockedBy = "" then expiredLock.tabId else expiredLock.lockedBy } ∧
    ("The lock for test run " ++ "TR001" ++ " expired. Please start the operation again.") ≠
      ("Test run " ++ "TR001" ++ " is locked by another tab.")) :=
  ⟨⟨by decide, by decide, by decide, by decide, by decide⟩,
   lock_expiry_recovery expiredDb ownerSess otherSess "TR001" (some "bob@example.com")
     (some "edit") 1000 "r3" expiredLock (by decide) (by decide) (by decide) (by decide) (by decide)⟩

/-- C9: an `acquire` from the tab that already holds the live lock does not
raise; it overwrites the lock document with a fresh token and a fresh expiry
and replaces the tab's locally recorded token, after which an ownership
assertion relying on the old token alone fails with the
locked-by-another-tab error. -/
theorem acquire_same_tab_refreshes (db : DB) (sess : TabSession) (testRunId : String)
    (lockedBy reason : Option String) (now : Nat) (rand : String) (d : RunLock)
    (hfound : lookupAssoc db.locks testRunId = some d)
    (hsame : d.tabId = sess.tabId)
    (hstale : d.lockId ≠ sess.tabId ++ "-" ++ toString now ++ "-" ++ rand)
    (t2 : Nat) (ht2 : t2 < now + LOCK_TTL_MS)
    (sOld : TabSession) (hOldTab : sOld.tabId = sess.tabId)
    (hOldTok : lookupAssoc sOld.localLockTokens testRunId = some d.lockId) :
    (testCaseExecutionsService.acquireTestRunLock db sess testRunId lockedBy reason now rand).result =
      Except.ok (sess.tabId ++ "-" ++ toString now ++ "-" ++ rand) ∧
    lookupAssoc (testCaseExecutionsService.acquireTestRunLock db sess testRunId
        lockedBy reason now rand).db.locks testRunId =
      some { lockId := sess.tabId ++ "-" ++ toString now ++ "-" ++ rand
           , tabId := sess.tabId
           , lockedBy := orDefault lockedBy "unknown"
           , reason := orDefault reason "unspecified"
           , lockedAt := now
           , expiresAt := now + LOCK_TTL_MS } ∧
    lookupAssoc (testCaseExecutionsService.acquireTestRunLock db sess testRunId
        lockedBy reason now rand).sess.localLockTokens testRunId =
      some (sess.tabId ++ "-" ++ toString now ++ "-" ++ rand) ∧
    (testCaseExecutionsService.assertLockOwnership
        (testCaseExecutionsService.acquireTestRunLock db sess testRunId
          lockedBy reason now rand).db sOld testRunId t2).error =
      some { message := "Test run " ++ testRunId ++ " is locked by another tab."
           , lockOwner := if orDefault lockedBy "unknown" = ""
               then sess.tabId else orDefault lockedBy "unknown" } := by
  have hcond : ¬ (now < d.expiresAt ∧ d.tabId ≠ sess.tabId) := fun hx => hx.2 hsame
  have hacq : testCaseExecutionsService.acquireTestRunLock db sess testRunId lockedBy reason now rand =
      { result := .ok (sess.tabId ++ "-" ++ toString now ++ "-" ++ rand)
      , db := { db with
            locks := setAssoc db.locks testRunId
              { lockId := sess.tabId ++ "-" ++ toString now ++ "-" ++ rand
              , tabId := sess.tabId
              , lockedBy := orDefault lockedBy "unknown"
              , reason := orDefault reason "unspecified"
              , lockedAt := now
              , expiresAt := now + LOCK_TTL_MS }
          , log := db.log ++ [Event.lockAcquired testRunId (orDefault reason "unspecified")] }
      , sess := { sess with
            localLockTokens := setAssoc sess.localLockTokens testRunId
              (sess.tabId ++ "-" ++ toString now ++ "-" ++ rand) } } := by
    unfold testCaseExecutionsService.acquireTestRunLock
    rw [hfound]
    simp [hcond]
  rw [hacq]
  refine ⟨rfl, lookupAssoc_setAssoc_self _ _ _, lookupAssoc_setAssoc_self _ _ _, ?_⟩
  have ht2' : ¬ (now + LOCK_TTL_MS ≤ t2) := by omega
  have hneq : ((sess.tabId ++ "-" ++ toString now ++ "-" ++ rand) == d.lockId) = false := by
    exact beq_eq_false_iff_ne.mpr (Ne.symm hstale)
  unfold testCaseExecutionsService.assertLockOwnership
  rw [lookupAssoc_setAssoc_self]
  simp [ht2', hOldTok, hneq]

/-- Closed witness for `acquire_same_tab_refreshes`: the holder re-acquires at
time 50, and an assertion carrying only the old token fails. -/
theorem acquire_same_tab_refreshes_witness :
    (lookupAssoc lockedDb.locks "TR001" = some heldLock ∧ heldLock.tabId = ownerSess.tabId ∧
      heldLock.lockId ≠ ownerSess.tabId ++ "-" ++ toString (50 : Nat) ++ "-" ++ "zz" ∧
      (60 : Nat) < 50 + LOCK_TTL_MS ∧ ownerSess.tabId = ownerSess.tabId ∧
      lookupAssoc ownerSess.localLockTokens "TR001" = some heldLock.lockId) ∧
    ((testCaseExecutionsService.acquireTestRunLock lockedDb ownerSess "TR001"
        (some "alice@example.com") (some "execution") 50 "zz").result =
      Except.ok (ownerSess.tabId ++ "-" ++ toString (50 : Nat) ++ "-" ++ "zz") ∧
    lookupAssoc (testCaseExecutionsService.acquireTestRunLock lockedDb ownerSess "TR001"
        (some "alice@example.com") (some "execution") 50 "zz").db.locks "TR001" =
      some { lockId := ownerSess.tabId ++ "-" ++ toString (50 : Nat) ++ "-" ++ "zz"
           , tabId := ownerSess.tabId
           , lockedBy := orDefault (some "alice@example.com") "unknown"
           , reason := orDefault (some "execution") "unspecified"
           , lockedAt := 50
           , expiresAt := 50 + LOCK_TTL_MS } ∧
    lookupAssoc (testCaseExecutionsService.acquireTestRunLock lockedDb ownerSess "TR001"
        (some "alice@example.com") (some "execution") 50 "zz").sess.localLockTokens "TR001" =
      some (ownerSess.tabId ++ "-" ++ toString (50 : Nat) ++ "-" ++ "zz") ∧
    (testCaseExecutionsService.assertLockOwnership
        (testCaseExecutionsService.acquireTestRunLock lockedDb ownerSess "TR001"
          (some "alice@example.com") (some "execution") 50 "zz").db ownerSess "TR001" 60).error =
      some { message := "Test run " ++ "TR001" ++ " is locked by another tab."
           , lockOwner := if orDefault (some "alice@example.com") "unknown" = ""
               then ownerSess.tabId else orDefault (some "alice@example.com") "unknown" }) :=
  ⟨⟨by decide, by decide, by decide, by decide, rfl, by decide⟩,
   acquire_same_tab_refreshes lockedDb ownerSess "TR001" (some "alice@example.com")
     (some "execution") 50 "zz" heldLock (by decide) (by decide) (by decide) 60 (by decide)
     ownerSess rfl (by decide)⟩

/-- C10: `update` can never change a record's `testRunId`, `testCaseId` or
`executionDate` (the accepted field set excludes them) and leaves every other
execution record unchanged, so no update creates a new (testRunId, testCaseId)
duplicate or moves a record between runs. -/
theorem update_frame (db : DB) (id : Nat) (u : ExecutionUpdate) (db' : DB)
    (h : testCaseExecutionsService.update db id u = Except.ok db') :
    db'.executions.map (fun r => (r.id, r.testRunId, r.testCaseId, r.executionDate)) =
      db.executions.map (fun r => (r.id, r.testRunId, r.testCaseId, r.executionDate)) ∧
    (∀ r ∈ db.executions, r.id ≠ id → r ∈ db'.executions) ∧
    db'.runs = db.runs ∧ db'.locks = db.locks := by
  unfold testCaseExecutionsService.update at h
  split at h
  · rw [Except.ok.injEq] at h
    subst h
    refine ⟨?_, ?_, rfl, rfl⟩
    · rw [List.map_map]
      apply List.map_congr_left
      intro r _
      by_cases hid : (r.id == id) = true
      · simp [Function.comp, hid, testCaseExecutionsService.applyExecutionUpdate]
      · simp [Function.comp, hid]
    · intro r hr hne
      have hf : (r.id == id) = false := by simpa using hne
      exact List.mem_map.mpr ⟨r, hr, by simp [hf]⟩
  · exact absurd h (by simp)

/-- Closed witness for `update_frame`: a status update on record 7 keeps its
identity fields and the rest of the store. -/
theorem update_frame_witness :
    (testCaseExecutionsService.update lockedDb 7 wUpdate = Except.ok lockedDbUpdated) ∧
    (lockedDbUpdated.executions.map (fun r => (r.id, r.testRunId, r.testCaseId, r.executionDate)) =
      lockedDb.executions.map (fun r => (r.id, r.testRunId, r.testCaseId, r.executionDate)) ∧
    (∀ r ∈ lockedDb.executions, r.id ≠ 7 → r ∈ lockedDbUpdated.executions) ∧
    lockedDbUpdated.runs = lockedDb.runs ∧ lockedDbUpdated.locks = lockedDb.locks) :=
  ⟨by decide, update_frame lockedDb 7 wUpdate lockedDbUpdated (by decide)⟩

/-- C4: duplicating the sample run `TR001` (cases `C1`, `C2`, `C3` at orders
0, 1, 2) produces run `TR002` with status "Not Started" and exactly three
execution records, one per source testCaseId with the same order, each with
empty `actualResult`, status "Not Run", empty `testedBy`, the fresh insertion
time as `executionDate`, and an id distinct from every execution id of the
source run. -/
theorem duplicate_run_scenario :
    (confirmDuplicate sampleDb sampleSess "TR001" "bob@example.com" "Release 1 (Copy 2)" 1000 "r1").1 =
      Except.ok "TR002" ∧
    ((confirmDuplicate sampleDb sampleSess "TR001" "bob@example.com" "Release 1 (Copy 2)" 1000 "r1").2.1.runs.find?
      (fun r => r.id == "TR002")).map (fun r => r.status) = some "Not Started" ∧
    ((confirmDuplicate sampleDb sampleSess "TR001" "bob@example.com" "Release 1 (Copy 2)" 1000 "r1").2.1.executions.filter
      (fun r => r.testRunId == "TR002")).map (fun r => (r.testCaseId, r.order)) =
      [("C1", 0), ("C2", 1), ("C3", 2)] ∧
    (∀ r ∈ (confirmDuplicate sampleDb sampleSess "TR001" "bob@example.com" "Release 1 (Copy 2)" 1000 "r1").2.1.executions.filter
      (fun r => r.testRunId == "TR002"),
      r.actualResult = "" ∧ r.status = "Not Run" ∧ r.testedBy = "" ∧ r.executionDate = 1000) ∧
    (∀ r ∈ (confirmDuplicate sampleDb sampleSess "TR001" "bob@example.com" "Release 1 (Copy 2)" 1000 "r1").2.1.executions.filter
      (fun r => r.testRunId == "TR002"), ∀ s ∈ sampleDb.executions, r.id ≠ s.id) := by
  decide

/-- C5 counterexample: in a concrete execution of the duplication workflow
the new run document `TR002` is created strictly before the run lock for
`TR002` (reason "duplicate-test-run") is acquired, so the lock is not
acquired before the run record is created. -/
theorem duplicate_lock_after_run_create :
    (confirmDuplicate sampleDb sampleSess "TR001" "bob@example.com" "Release 1 (Copy 2)" 1000 "r1").2.1.log =
      [Event.runCreated "TR002", Event.lockAcquired "TR002" "duplicate-test-run",
       Event.execCreated 3 "TR002", Event.execCreated 4 "TR002", Event.execCreated 5 "TR002"] ∧
    (confirmDuplicate sampleDb sampleSess "TR001" "bob@example.com" "Release 1 (Copy 2)" 1000 "r1").2.1.log.indexOf
        (Event.runCreated "TR002") <
      (confirmDuplicate sampleDb sampleSess "TR001" "bob@example.com" "Release 1 (Copy 2)" 1000 "r1").2.1.log.indexOf
        (Event.lockAcquired "TR002" "duplicate-test-run") := by
  decide

/-- C6: with `testRuns` containing manually created runs (most recent id
`TR005`) and no counter document, the first `generateTestRunId` call seeds
the counter from the trailing digits of the most recently created run's id
and returns `TR006`, leaving the counter at 6. -/
theorem generate_id_seeds_from_existing :
    testRunsService.generateTestRunId seedDb =
      Except.ok ("TR006", { seedDb with runCounter := some 6 }) := by
  decide


/-- The id-generation loop touches only the counter: log, collections and the
fresh-id source are unchanged on success. -/
theorem generateTestRunIdLoop_frame (seed : Nat) :
    ∀ (fuel : Nat) (db : DB) (out : String × DB),
      testRunsService.generateTestRunIdLoop seed fuel db = .ok out →
      out.2.log = db.log ∧ out.2.runs = db.runs ∧ out.2.executions = db.executions ∧
      out.2.locks = db.locks ∧ out.2.nextExecId = db.nextExecId
  | 0, db, out => by
    intro h
    exact absurd h (by simp [testRunsService.generateTestRunIdLoop])
  | fuel + 1, db, out => by
    intro h
    unfold testRunsService.generateTestRunIdLoop at h
    dsimp only at h
    split at h
    · have hrec := generateTestRunIdLoop_frame seed fuel _ out h
      exact hrec
    · rw [Except.ok.injEq] at h
      subst h
      exact ⟨rfl, rfl, rfl, rfl, rfl⟩

/-- The model of `testRunsService.create` appends exactly the run-created event and leaves
the other collections unchanged. -/
theorem runsCreate_frame (db : DB) (t : TestRunDoc) (now : Nat) (db' : DB)
    (h : testRunsService.create db t now = .ok db') :
    db'.log = db.log ++ [Event.runCreated t.id] ∧ db'.executions = db.executions ∧
    db'.locks = db.locks ∧ db'.nextExecId = db.nextExecId := by
  unfold testRunsService.create at h
  split at h
  · exact absurd h (by simp)
  · rw [Except.ok.injEq] at h
    subst h
    exact ⟨rfl, rfl, rfl, rfl⟩

/-- A successful `createWithGeneratedId` appends exactly one run-created event
for the returned id. -/
theorem createWithGeneratedIdLoop_frame (input : RunInput) (now : Nat) :
    ∀ (fuel : Nat) (db : DB) (out : String × DB),
      testRunsService.createWithGeneratedIdLoop input now fuel db = .ok out →
      out.2.log = db.log ++ [Event.runCreated out.1] ∧ out.2.executions = db.executions ∧
      out.2.locks = db.locks ∧ out.2.nextExecId = db.nextExecId
  | 0, db, out => by
    intro h
    exact absurd h (by simp [testRunsService.createWithGeneratedIdLoop])
  | fuel + 1, db, out => by
    intro h
    unfold testRunsService.createWithGeneratedIdLoop at h
    rcases hg : testRunsService.generateTestRunId db with e | p
    · rw [hg] at h
      exact absurd h (by simp)
    · obtain ⟨candidateId, db1⟩ := p
      rw [hg] at h
      dsimp only at h
      have hgf := generateTestRunIdLoop_frame (testRunsService.getSeedRunNumber db)
        MAX_ID_ATTEMPTS db (candidateId, db1) hg
      rcases hc : testRunsService.create db1
          { id := candidateId
          , name := input.name
          , description := input.description.getD ""
          , createdBy := input.createdBy
          , createdAt := now
          , updatedAt := now
          , status := input.status } now with e2 | db2
      · rw [hc] at h
        dsimp only at h
        split at h
        · have hrec := createWithGeneratedIdLoop_frame input now fuel db1 out h
          exact ⟨by rw [hrec.1, hgf.1], by rw [hrec.2.1, hgf.2.2.1],
            by rw [hrec.2.2.1, hgf.2.2.2.1], by rw [hrec.2.2.2, hgf.2.2.2.2]⟩
        · exact absurd h (by simp)
      · rw [hc] at h
        dsimp only at h
        rw [Except.ok.injEq] at h
        subst h
        have hcf := runsCreate_frame db1 _ now db2 hc
        exact ⟨by rw [hcf.1, hgf.1], by rw [hcf.2.1, hgf.2.2.1],
          by rw [hcf.2.2.1, hgf.2.2.2.1], by rw [hcf.2.2.2, hgf.2.2.2.2]⟩

/-- A successful `duplicate` appends exactly one run-created event for the new
run id. -/
theorem duplicate_frame (db : DB) (id createdBy : String) (customName : Option String)
    (now : Nat) (out : String × DB)
    (h : testRunsService.duplicate db id createdBy customName now = .ok out) :
    out.2.log = db.log ++ [Event.runCreated out.1] ∧ out.2.executions = db.executions ∧
    out.2.locks = db.locks ∧ out.2.nextExecId = db.nextExecId := by
  unfold testRunsService.duplicate at h
  rcases hf : db.runs.find? (fun r => r.id == id) with _ | original
  · rw [hf] at h
    exact absurd h (by simp)
  · rw [hf] at h
    dsimp only at h
    split at h
    · exact absurd h (by simp)
    · unfold testRunsService.createWithGeneratedId at h
      exact createWithGeneratedIdLoop_frame _ now MAX_ID_ATTEMPTS db out h

/-- An `acquire` that returns a token performed the lock write. -/
theorem acquire_eq_of_ok (db : DB) (sess : TabSession) (testRunId : String)
    (lockedBy reason : Option String) (now : Nat) (rand : String) (tok : String)
    (h : (testCaseExecutionsService.acquireTestRunLock db sess testRunId
      lockedBy reason now rand).result = .ok tok) :
    testCaseExecutionsService.acquireTestRunLock db sess testRunId lockedBy reason now rand =
      acquireWriteResult db sess testRunId lockedBy reason now rand := by
  unfold testCaseExecutionsService.acquireTestRunLock acquireWriteResult
  rcases hl : lookupAssoc db.locks testRunId with _ | d
  · rfl
  · dsimp only
    by_cases hcond : now < d.expiresAt ∧ d.tabId ≠ sess.tabId
    · exfalso
      have herr : (testCaseExecutionsService.acquireTestRunLock db sess testRunId
          lockedBy reason now rand).result = Except.error
            { message := "Test run " ++ testRunId ++ " is currently being modified by another tab."
            , lockOwner := if d.lockedBy = "" then d.tabId else d.lockedBy } := by
        unfold testCaseExecutionsService.acquireTestRunLock
        rw [hl]
        simp [hcond]
      rw [herr] at h
      exact absurd h (by simp)
    · rw [if_neg hcond]

/-- An ownership assertion that raises no error changes nothing. -/
theorem assert_none_eq (db : DB) (sess : TabSession) (testRunId : String) (now : Nat)
    (h : (testCaseExecutionsService.assertLockOwnership db sess testRunId now).error = none) :
    testCaseExecutionsService.assertLockOwnership db sess testRunId now =
      { error := none, db := db, sess := sess } := by
  unfold testCaseExecutionsService.assertLockOwnership at h ⊢
  rcases hl : lookupAssoc db.locks testRunId with _ | d
  · rw [hl] at h
    exact absurd h (by simp)
  · rw [hl] at h
    dsimp only at h ⊢
    by_cases hexp : d.expiresAt ≤ now
    · rw [if_pos hexp] at h
      exact absurd h (by simp)
    · rw [if_neg hexp] at h ⊢
      split at h
      · split
        · rfl
        · simp_all
      · exact absurd h (by simp)

/-- A `create` that returns an id appends only execution-created events and
leaves the runs collection unchanged. -/
theorem create_ok_log (db : DB) (sess : TabSession) (e : ExecutionInput) (now : Nat) (i : Nat)
    (h : (testCaseExecutionsService.create db sess e now).result = .ok i) :
    ∃ Δ, (testCaseExecutionsService.create db sess e now).db.log = db.log ++ Δ ∧
      (∀ ev ∈ Δ, ∃ j rid, ev = Event.execCreated j rid) ∧
      (testCaseExecutionsService.create db sess e now).db.runs = db.runs := by
  rcases ha : (testCaseExecutionsService.assertLockOwnership db sess e.testRunId now).error
    with _ | err
  · have haeq := assert_none_eq db sess e.testRunId now ha
    unfold testCaseExecutionsService.create
    rw [haeq]
    dsimp only
    split
    · exact ⟨[], by simp, by simp, rfl⟩
    · refine ⟨[Event.execCreated db.nextExecId e.testRunId], rfl, ?_, rfl⟩
      intro ev hev
      rw [List.mem_singleton] at hev
      subst hev
      exact ⟨db.nextExecId, e.testRunId, rfl⟩
  · exfalso
    unfold testCaseExecutionsService.create at h
    dsimp only at h
    rw [ha] at h
    exact absurd h (by simp)

/-- A successful batch of duplication creates appends only execution-created
events. -/
theorem createAllExecutions_frame (newTestRunId : String) (now : Nat) :
    ∀ (lst : List TestCaseExecution) (db : DB) (sess : TabSession) (db3 : DB) (sess3 : TabSession),
      createAllExecutions newTestRunId now lst db sess = (.ok (), db3, sess3) →
      ∃ Δ, db3.log = db.log ++ Δ ∧ ∀ ev ∈ Δ, ∃ j rid, ev = Event.execCreated j rid
  | [], db, sess, db3, sess3 => by
    intro h
    unfold createAllExecutions at h
    rw [Prod.mk.injEq, Prod.mk.injEq] at h
    exact ⟨[], by rw [← h.2.1]; simp, by simp⟩
  | ex :: rest, db, sess, db3, sess3 => by
    intro h
    unfold createAllExecutions at h
    dsimp only at h
    rcases hres : (testCaseExecutionsService.create db sess
        { testRunId := newTestRunId, testCaseId := ex.testCaseId, actualResult := ""
        , status := "Not Run", testedBy := "", executionDate := now, notes := some ""
        , order := some ex.order } now).result with e2 | i
    · rw [hres] at h
      simp at h
    · rw [hres] at h
      dsimp only at h
      obtain ⟨Δ1, h1, h1ev, _⟩ := create_ok_log db sess
        { testRunId := newTestRunId, testCaseId := ex.testCaseId, actualResult := ""
        , status := "Not Run", testedBy := "", executionDate := now, notes := some ""
        , order := some ex.order } now i hres
      obtain ⟨Δ2, h2, h2ev⟩ := createAllExecutions_frame newTestRunId now rest _ _ db3 sess3 h
      refine ⟨Δ1 ++ Δ2, ?_, ?_⟩
      · rw [h2, h1, List.append_assoc]
      · intro ev hev
        rcases List.mem_append.mp hev with hev | hev
        · exact h1ev ev hev
        · exact h2ev ev hev

/-- The function `releaseTestRunLock` never changes the event log. -/
theorem release_log (db : DB) (sess : TabSession) (testRunId : String) (lockId : Option String) :
    (testCaseExecutionsService.releaseTestRunLock db sess testRunId lockId).1.log = db.log := by
  unfold testCaseExecutionsService.releaseTestRunLock
  rcases ho : lockId.orElse (fun _ => lookupAssoc sess.localLockTokens testRunId) with _ | eff
  · rfl
  · dsimp only
    rcases hl : lookupAssoc db.locks testRunId with _ | d
    · rfl
    · dsimp only
      split
      · rfl
      · rfl

/-- C5 amended: in every successful execution of the run-duplication workflow
starting from an empty event log, the new run record is created in the runs
collection strictly before the run lock for the new run id (reason
"duplicate-test-run") is acquired, and the lock is acquired before any of the
new execution records is inserted. -/
theorem duplicate_workflow_run_before_lock (db : DB) (sess : TabSession)
    (sourceId userEmail newName : String) (now : Nat) (rand : String) (newId : String)
    (hlog : db.log = [])
    (hok : (confirmDuplicate db sess sourceId userEmail newName now rand).1 = Except.ok newId) :
    ∃ Δ, (confirmDuplicate db sess sourceId userEmail newName now rand).2.1.log =
        Event.runCreated newId :: Event.lockAcquired newId "duplicate-test-run" :: Δ ∧
      ∀ ev ∈ Δ, ∃ j rid, ev = Event.execCreated j rid := by
  unfold confirmDuplicate at hok ⊢
  by_cases h1 : (jsTrim newName == "") = true
  · rw [if_pos h1] at hok
    exact absurd hok (by simp)
  · rw [if_neg h1] at hok ⊢
    by_cases h2 : testRunsService.nameExists db newName = true
    · rw [if_pos h2] at hok
      exact absurd hok (by simp)
    · rw [if_neg h2] at hok ⊢
      rcases h3 : testRunsService.duplicate db sourceId userEmail (some newName) now
        with e | ⟨newRunId, db1⟩
      · rw [h3] at hok
        exact absurd hok (by simp)
      · rw [h3] at hok
        dsimp only at hok ⊢
        rcases h4 : (testCaseExecutionsService.acquireTestRunLock db1 sess newRunId
            (some userEmail) (some "duplicate-test-run") now rand).result with e | lockId
        · rw [h4] at hok
          exact absurd hok (by simp)
        · have hacq := acquire_eq_of_ok db1 sess newRunId (some userEmail)
            (some "duplicate-test-run") now rand lockId h4
          rw [hacq] at hok ⊢
          rw [hacq] at h4
          generalize hDB2 : (acquireWriteResult db1 sess newRunId (some userEmail)
            (some "duplicate-test-run") now rand).db = db2 at hok ⊢
          generalize hS2 : (acquireWriteResult db1 sess newRunId (some userEmail)
            (some "duplicate-test-run") now rand).sess = sess2 at hok ⊢
          rw [h4] at hok
          dsimp only at hok ⊢
          rcases h5 : createAllExecutions newRunId now
              (dedupByTestCaseId [] (testCaseExecutionsService.getByTestRunId db2 sourceId))
              db2 sess2 with ⟨res, db3, sess3⟩
          rcases res with e | u
          · rw [h5] at hok
            dsimp only at hok
            exact absurd hok (by simp)
          · cases u
            rw [h5] at hok
            dsimp only at hok ⊢
            rw [Except.ok.injEq] at hok
            subst hok
            have hd := duplicate_frame db sourceId userEmail (some newName) now (newRunId, db1) h3
            have hdb2log : db2.log = db1.log ++
                [Event.lockAcquired newRunId "duplicate-test-run"] := by
              rw [← hDB2]
              rfl
            obtain ⟨Δ2, hca, hcaev⟩ :=
              createAllExecutions_frame newRunId now _ db2 sess2 db3 sess3 h5
            refine ⟨Δ2, ?_, hcaev⟩
            rw [release_log, hca, hdb2log, hd.1, hlog]
            simp

/-- Closed witness for `duplicate_workflow_run_before_lock` on the concrete
duplication scenario. -/
theorem duplicate_workflow_run_before_lock_witness :
    ∃ Δ, (confirmDuplicate sampleDb sampleSess "TR001" "bob@example.com" "Release 1 (Copy 2)"
        1000 "r1").2.1.log =
        Event.runCreated "TR002" :: Event.lockAcquired "TR002" "duplicate-test-run" :: Δ ∧
      ∀ ev ∈ Δ, ∃ j rid, ev = Event.execCreated j rid :=
  duplicate_workflow_run_before_lock sampleDb sampleSess "TR001" "bob@example.com"
    "Release 1 (Copy 2)" 1000 "r1" "TR002" rfl (by decide)

/-- C7: `getTestRunStats` counts each testCaseId exactly once (keeping the
first record found in the sorted listing): for every store and run — in
particular a run holding two records for one case, one Pass and one Fail —
the returned total equals the number of distinct testCaseIds among the run's
records. -/
theorem getTestRunStats_total_distinct (db : DB) (runId : String) :
    (testCaseExecutionsService.getTestRunStats db runId).total =
      ((db.executions.filter (fun r => r.testRunId == runId)).map
        (fun r => r.testCaseId)).toFinset.card := by
  unfold testCaseExecutionsService.getTestRunStats
  dsimp only
  have hfind : ∀ a ∈ jsSetDedup []
      ((testCaseExecutionsService.getByTestRunId db runId).map (fun e => e.testCaseId)),
      ((testCaseExecutionsService.getByTestRunId db runId).find?
        (fun e => e.testCaseId == a)).isSome := by
    intro a ha
    have hmem := ((mem_jsSetDedup a _ []).mp ha).1
    obtain ⟨x, hx, hxa⟩ := List.mem_map.mp hmem
    rw [List.find?_isSome]
    exact ⟨x, hx, by simp [hxa]⟩
  rw [length_filterMap_of_isSome _ _ hfind]
  have hnd := nodup_jsSetDedup
    ((testCaseExecutionsService.getByTestRunId db runId).map (fun e => e.testCaseId)) []
  rw [← List.toFinset_card_of_nodup hnd]
  have hset1 : (jsSetDedup []
      ((testCaseExecutionsService.getByTestRunId db runId).map (fun e => e.testCaseId))).toFinset =
      ((testCaseExecutionsService.getByTestRunId db runId).map (fun e => e.testCaseId)).toFinset := by
    ext a
    simp [List.mem_toFinset, mem_jsSetDedup]
  rw [hset1]
  have hperm : ((testCaseExecutionsService.getByTestRunId db runId).map
      (fun e => e.testCaseId)).Perm
      ((db.executions.filter (fun r => r.testRunId == runId)).map (fun r => r.testCaseId)) :=
    List.Perm.map _ (insertionSort_perm executionCompareLE _)
  have hset2 : ((testCaseExecutionsService.getByTestRunId db runId).map
      (fun e => e.testCaseId)).toFinset =
      ((db.executions.filter (fun r => r.testRunId == runId)).map
        (fun r => r.testCaseId)).toFinset := by
    ext a
    simp [List.mem_toFinset, hperm.mem_iff]
  rw [hset2]

/-- Ids collected by the duplicate walk all come from the walked list. -/
theorem findDupIds_subset :
    ∀ (l : List TestCaseExecution) (seen : List String) (i : Nat),
      i ∈ findDupIds seen l → i ∈ l.map (fun r => r.id)
  | [], seen, i => by simp [findDupIds]
  | e :: rest, seen, i => by
    intro h
    unfold findDupIds at h
    split at h
    · rcases List.mem_cons.mp h with rfl | h2
      · simp
      · have := findDupIds_subset rest seen i h2
        simp only [List.map_cons, List.mem_cons]
        exact Or.inr this
    · have := findDupIds_subset rest (e.testCaseId :: seen) i h
      simp only [List.map_cons, List.mem_cons]
      exact Or.inr this

/-- On a list whose testCaseIds are distinct and disjoint from `seen`, the
duplicate walk finds nothing. -/
theorem findDupIds_nil_of_nodup :
    ∀ (l : List TestCaseExecution) (seen : List String),
      (l.map (fun r => r.testCaseId)).Nodup →
      (∀ r ∈ l, r.testCaseId ∉ seen) →
      findDupIds seen l = []
  | [], _, _, _ => rfl
  | e :: rest, seen, hnd, hdisj => by
    rw [List.map_cons, List.nodup_cons] at hnd
    unfold findDupIds
    rw [if_neg (hdisj e (List.mem_cons_self e rest))]
    apply findDupIds_nil_of_nodup rest _ hnd.2
    intro r hr hs
    rcases List.mem_cons.mp hs with heq | hs2
    · exact hnd.1 (List.mem_map.mpr ⟨r, hr, heq⟩)
    · exact hdisj r (List.mem_cons_of_mem e hr) hs2

/-- Deleting each collected id in turn is the same as filtering them all
out. -/
theorem foldl_delete_eq_filter :
    ∀ (ids : List Nat) (l : List TestCaseExecution),
      ids.foldl (fun exs i => exs.filter (fun r => r.id != i)) l =
        l.filter (fun r => decide (r.id ∉ ids))
  | [], l => by simp
  | i :: is, l => by
    rw [List.foldl_cons, foldl_delete_eq_filter is _, List.filter_filter]
    apply List.filter_congr
    intro x _
    by_cases h1 : x.id = i
    · simp [h1]
    · by_cases h2 : x.id ∈ is
      · simp [h1, h2]
      · simp [h1, h2]

/-- The records surviving the duplicate walk have pairwise distinct
testCaseIds, none of them in `seen`. -/
theorem survivors_nodup :
    ∀ (l : List TestCaseExecution) (seen : List String),
      (l.map (fun r => r.id)).Nodup →
      ((l.filter (fun r => decide (r.id ∉ findDupIds seen l))).map
        (fun r => r.testCaseId)).Nodup ∧
      ∀ r ∈ l.filter (fun r => decide (r.id ∉ findDupIds seen l)), r.testCaseId ∉ seen
  | [], seen, _ => by simp [findDupIds]
  | e :: rest, seen, hnd => by
    rw [List.map_cons, List.nodup_cons] at hnd
    obtain ⟨hid, hndr⟩ := hnd
    by_cases hmem : e.testCaseId ∈ seen
    · have hfd : findDupIds seen (e :: rest) = e.id :: findDupIds seen rest := by
        show (if e.testCaseId ∈ seen then e.id :: findDupIds seen rest
          else findDupIds (e.testCaseId :: seen) rest) = e.id :: findDupIds seen rest
        rw [if_pos hmem]
      rw [hfd]
      have hefalse : (decide (e.id ∉ e.id :: findDupIds seen rest)) = false := by simp
      rw [List.filter_cons, hefalse]
      simp only [Bool.false_eq_true, if_false]
      have hcongr : rest.filter (fun r => decide (r.id ∉ e.id :: findDupIds seen rest)) =
          rest.filter (fun r => decide (r.id ∉ findDupIds seen rest)) := by
        apply List.filter_congr
        intro x hx
        have hxi : x.id ≠ e.id := by
          intro hcontra
          exact hid (List.mem_map.mpr ⟨x, hx, hcontra⟩)
        simp [List.mem_cons, hxi]
      rw [hcongr]
      exact survivors_nodup rest seen hndr
    · have hfd : findDupIds seen (e :: rest) = findDupIds (e.testCaseId :: seen) rest := by
        show (if e.testCaseId ∈ seen then e.id :: findDupIds seen rest
          else findDupIds (e.testCaseId :: seen) rest) = findDupIds (e.testCaseId :: seen) rest
        rw [if_neg hmem]
      rw [hfd]
      have hekeep : (decide (e.id ∉ findDupIds (e.testCaseId :: seen) rest)) = true := by
        simp only [decide_eq_true_eq]
        intro hin
        exact hid (findDupIds_subset rest (e.testCaseId :: seen) e.id hin)
      rw [List.filter_cons, hekeep]
      simp only [if_true]
      obtain ⟨ih1, ih2⟩ := survivors_nodup rest (e.testCaseId :: seen) hndr
      constructor
      · rw [List.map_cons, List.nodup_cons]
        refine ⟨?_, ih1⟩
        intro hc
        obtain ⟨x, hx, hxe⟩ := List.mem_map.mp hc
        exact (ih2 x hx) (hxe ▸ List.mem_cons_self _ _)
      · intro r hr
        rcases List.mem_cons.mp hr with rfl | hr2
        · exact hmem
        · exact fun hs => ih2 r hr2 (List.mem_cons_of_mem _ hs)

/-- Calling `cleanupDuplicates` on a run whose records already have pairwise distinct
testCaseIds deletes nothing and returns 0. -/
theorem cleanupDuplicates_of_nodup (db : DB) (runId : String)
    (h : ((db.executions.filter (fun r => r.testRunId == runId)).map
      (fun r => r.testCaseId)).Nodup) :
    testCaseExecutionsService.cleanupDuplicates db runId = (0, db) := by
  unfold testCaseExecutionsService.cleanupDuplicates
  dsimp only
  have hL : ((testCaseExecutionsService.getByTestRunId db runId).map
      (fun r => r.testCaseId)).Nodup := by
    have hperm := List.Perm.map (fun r => r.testCaseId)
      (insertionSort_perm executionCompareLE
        (db.executions.filter (fun r => r.testRunId == runId)))
    exact hperm.nodup_iff.mpr h
  have hnil := findDupIds_nil_of_nodup (testCaseExecutionsService.getByTestRunId db runId) []
    hL (by simp)
  rw [hnil]
  rfl

/-- C8: `cleanupDuplicates` is idempotent — after one call on a store whose
execution ids are distinct, a second call on the same runId deletes nothing
and returns 0, because at most one record per testCaseId remains. -/
theorem cleanupDuplicates_idempotent (db : DB) (runId : String)
    (h : (db.executions.map (fun r => r.id)).Nodup) :
    testCaseExecutionsService.cleanupDuplicates
        (testCaseExecutionsService.cleanupDuplicates db runId).2 runId =
      (0, (testCaseExecutionsService.cleanupDuplicates db runId).2) := by
  have hdb1 : (testCaseExecutionsService.cleanupDuplicates db runId).2.executions =
      db.executions.filter (fun r => decide (r.id ∉
        findDupIds [] (testCaseExecutionsService.getByTestRunId db runId))) := by
    unfold testCaseExecutionsService.cleanupDuplicates
    dsimp only
    exact foldl_delete_eq_filter _ _
  have hcomm : (db.executions.filter (fun r => decide (r.id ∉
        findDupIds [] (testCaseExecutionsService.getByTestRunId db runId)))).filter
        (fun r => r.testRunId == runId) =
      (db.executions.filter (fun r => r.testRunId == runId)).filter (fun r => decide (r.id ∉
        findDupIds [] (testCaseExecutionsService.getByTestRunId db runId))) := by
    rw [List.filter_filter, List.filter_filter]
    apply List.filter_congr
    intro x _
    exact Bool.and_comm _ _
  have hpermL : (testCaseExecutionsService.getByTestRunId db runId).Perm
      (db.executions.filter (fun r => r.testRunId == runId)) :=
    insertionSort_perm _ _
  have hidsL : ((testCaseExecutionsService.getByTestRunId db runId).map
      (fun r => r.id)).Nodup := by
    refine (List.Perm.map (fun r => r.id) hpermL).nodup_iff.mpr ?_
    exact List.Sublist.nodup
      (List.Sublist.map (fun r => r.id) (List.filter_sublist db.executions)) h
  obtain ⟨hsurvNodup, _⟩ :=
    survivors_nodup (testCaseExecutionsService.getByTestRunId db runId) [] hidsL
  have hpermSurv := hpermL.filter (fun r => decide (r.id ∉
    findDupIds [] (testCaseExecutionsService.getByTestRunId db runId)))
  apply cleanupDuplicates_of_nodup
  rw [hdb1, hcomm]
  exact ((List.Perm.map (fun r => r.testCaseId) hpermSurv).nodup_iff).mp hsurvNodup

/-- Closed witness for `cleanupDuplicates_idempotent`: the duplicate-laden run
`R` (cases `[C1, C1, C2, C1]`) is cleaned once, and the second call removes
nothing. -/
theorem cleanupDuplicates_idempotent_witness :
    ((dupDb.executions.map (fun r => r.id)).Nodup) ∧
    testCaseExecutionsService.cleanupDuplicates
        (testCaseExecutionsService.cleanupDuplicates dupDb "R").2 "R" =
      (0, (testCaseExecutionsService.cleanupDuplicates dupDb "R").2) :=
  ⟨by decide, cleanupDuplicates_idempotent dupDb "R" (by decide)⟩
